import Mathlib

/-!
Verification of the ACCU-RL Q-learning simulator (ERL_Simulation.py).

Shallow embedding: Python floats are idealized as real numbers (so
`math.sqrt` becomes `Real.sqrt`), integer state/action indices become `ℕ`
or `ℤ` (the code uses the int `-1` as the "no previous transition"
sentinel, so the trainer API takes `ℤ`), and the numpy Q-table becomes a
total function `ℕ → ℕ → ℝ` of which only indices below 9 x 5 are used.
Randomness (`random.uniform`, `random.random`) is modelled by passing the
drawn values explicitly, constrained to the intervals the code draws from.
-/

namespace ERL

/-- Learning rate ALPHA = 0.05 (ERL_Simulation.py line 74). -/
def ALPHA : ℝ := 0.05

/-- Discount factor GAMMA = 0.85 (line 75). -/
def GAMMA : ℝ := 0.85

/-- Threshold for logging a crucial update (line 77). -/
def CRUCIAL_TD_THRESHOLD : ℝ := 1.0

/-- Penalty for active control actions (line 81). -/
def ACTIVE_PENALTY : ℝ := -0.20

/-- Bonus for IDLE (line 82). -/
def IDLE_BONUS : ℝ := 0.05

/-- Number of temperature bins (line 86). -/
def TEMP_BINS : ℕ := 3

/-- Lux at or below this is LOW (line 90). -/
def LUX_BIN_LOW_MAX : ℝ := 100.0

/-- Lux at or above this is HIGH (line 91). -/
def LUX_BIN_HIGH_MIN : ℝ := 500.0

/-- Temp at or below this is COLD (line 92). -/
def TEMP_BIN_COLD_MAX : ℝ := 18.0

/-- Temp at or above this is HOT (line 93). -/
def TEMP_BIN_HOT_MIN : ℝ := 24.0

/-- Target lux (line 96). -/
def TARGET_LUX : ℝ := 300.0

/-- Target temperature (line 97). -/
def TARGET_TEMP : ℝ := 21.0

/-- Normalization factor of the comfort reward (line 98). -/
def REWARD_MAX_DISTANCE : ℝ := 10.0

/-- Action LIGHT+ (line 104). -/
def A_LIGHT_UP : ℤ := 0

/-- Action LIGHT- (line 104). -/
def A_LIGHT_DOWN : ℤ := 1

/-- Action TEMP+ (line 104). -/
def A_TEMP_UP : ℤ := 2

/-- Action TEMP- (line 104). -/
def A_TEMP_DOWN : ℤ := 3

/-- Action IDLE (line 104). -/
def A_DO_NOTHING : ℤ := 4

/-- The lux bin computed inside `get_state` (lines 112-117): 0 if
lux <= 100.0, 2 if lux >= 500.0, else 1. -/
noncomputable def lux_bin (lux : ℝ) : ℕ :=
  if lux ≤ LUX_BIN_LOW_MAX then 0
  else if LUX_BIN_HIGH_MIN ≤ lux then 2
  else 1

/-- The temp bin computed inside `get_state` (lines 120-125): 0 if
temp <= 18.0, 2 if temp >= 24.0, else 1. -/
noncomputable def temp_bin (temp : ℝ) : ℕ :=
  if temp ≤ TEMP_BIN_COLD_MAX then 0
  else if TEMP_BIN_HOT_MIN ≤ temp then 2
  else 1

/-- `get_state` (lines 109-128): state index = lux_bin * TEMP_BINS + temp_bin. -/
noncomputable def get_state (lux temp : ℝ) : ℕ :=
  lux_bin lux * TEMP_BINS + temp_bin temp

/-- The comfort term of `calculate_reward` (lines 133-141):
lux error scaled by 100, L2 distance to the target, reward
1.0 - distance / 10.0. -/
noncomputable def comfort_reward (lux temp : ℝ) : ℝ :=
  1.0 - Real.sqrt ((|lux - TARGET_LUX| / 100.0) ^ 2 + |temp - TARGET_TEMP| ^ 2)
    / REWARD_MAX_DISTANCE

/-- The energy term of `calculate_reward` (lines 143-151): zero for the
sentinel -1, ACTIVE_PENALTY for non-IDLE actions, IDLE_BONUS for IDLE. -/
noncomputable def energy_cost (a_prev : ℤ) : ℝ :=
  if a_prev ≠ -1 then
    (if a_prev ≠ A_DO_NOTHING then ACTIVE_PENALTY else IDLE_BONUS)
  else 0.0

/-- The shaping term of `calculate_reward` (lines 155-180): the S4
override (+5.0 for IDLE, -3.0 otherwise) and the four mutually exclusive
elif penalties of -0.3. -/
noncomputable def shaping (s : ℕ) (a_prev : ℤ) : ℝ :=
  if s = 4 then (if a_prev ≠ A_DO_NOTHING then -3.0 else 5.0)
  else if s < 3 ∧ a_prev = A_LIGHT_DOWN then -0.3
  else if 5 < s ∧ a_prev = A_LIGHT_UP then -0.3
  else if (s = 0 ∨ s = 3 ∨ s = 6) ∧ a_prev = A_TEMP_DOWN then -0.3
  else if (s = 2 ∨ s = 5 ∨ s = 8) ∧ a_prev = A_TEMP_UP then -0.3
  else 0.0

/-- `calculate_reward` (lines 130-186): comfort + energy + shaping,
clamped to [-3.0, 6.0] by `max(-3.0, min(6.0, reward))` (line 184). -/
noncomputable def calculate_reward (lux temp : ℝ) (a_prev : ℤ) : ℝ :=
  max (-3.0) (min 6.0
    (comfort_reward lux temp + energy_cost a_prev
      + shaping (get_state lux temp) a_prev))

/-- `np.max(q[s, :])` over the 5 actions, as in `QLearningTrainer.max_q`
(lines 280-282). -/
noncomputable def max_q (q : ℕ → ℕ → ℝ) (s : ℕ) : ℝ :=
  max (q s 0) (max (q s 1) (max (q s 2) (max (q s 3) (q s 4))))

/-- `np.argmax(q[s, :])` over the 5 actions: the first index attaining the
maximum (numpy first-max tie-breaking). -/
noncomputable def argmax_row (q : ℕ → ℕ → ℝ) (s : ℕ) : ℕ :=
  List.foldl (fun best a => if q s best < q s a then a else best) 0 [1, 2, 3, 4]

/-- The state of `QLearningTrainer`: the Q-table and the two statistics
counters (lines 263-278). -/
structure QLearningTrainer where
  Q_table : ℕ → ℕ → ℝ
  crucial_updates_count : ℕ
  policy_changes_count : ℕ

/-- `QLearningTrainer.__init__` (lines 263-278): a zero table with the
entry (S4, IDLE) pre-seeded to 10.0, both counters zero. -/
noncomputable def QLearningTrainer.init : QLearningTrainer where
  Q_table := fun s a => if s = 4 ∧ a = 4 then 10.0 else 0.0
  crucial_updates_count := 0
  policy_changes_count := 0

/-- `QLearningTrainer.update_q_table` (lines 284-323): skip when
`s_prev < 0 or a_prev < 0`; otherwise the Bellman update
`Q(S,A) <- Q(S,A) + ALPHA * (r + GAMMA * max_q(S') - Q(S,A))`, counting a
crucial update when `|td_error| > CRUCIAL_TD_THRESHOLD` and a policy change
when the argmax of the updated row moved. -/
noncomputable def update_q_table (t : QLearningTrainer) (s_prev a_prev : ℤ)
    (r : ℝ) (s_new : ℕ) : QLearningTrainer :=
  if s_prev < 0 ∨ a_prev < 0 then t
  else
    let sp := s_prev.toNat
    let ap := a_prev.toNat
    let old_best := argmax_row t.Q_table sp
    let old_q := t.Q_table sp ap
    let max_q_new := max_q t.Q_table s_new
    let target_q := r + GAMMA * max_q_new
    let td_error := target_q - old_q
    let new_q := old_q + ALPHA * td_error
    let Qnew : ℕ → ℕ → ℝ := fun s a => if s = sp ∧ a = ap then new_q else t.Q_table s a
    let new_best := argmax_row Qnew sp
    { Q_table := Qnew
    , crucial_updates_count :=
        t.crucial_updates_count + (if CRUCIAL_TD_THRESHOLD < |td_error| then 1 else 0)
    , policy_changes_count :=
        t.policy_changes_count + (if old_best ≠ new_best then 1 else 0) }

/-- The state of the `Environment` class (lines 205-219). -/
structure Environment where
  lux : ℝ
  temp : ℝ
  outside_temp : ℝ

/-- Temp drift rate (line 217). -/
def TEMP_DRIFT_RATE : ℝ := 0.05

/-- Lux drift rate (line 218). -/
def LUX_DRIFT_RATE : ℝ := 5.0

/-- The lux floor (line 219). -/
def NATURAL_LUX_BASE : ℝ := 50.0

/-- The random draws one call of `Environment.step` and the surrounding
loop iteration can consume: the light multiplier `U(0.8, 1.2)`, the temp
noise `U(0.005, 0.05)`, the lux drift multiplier `U(0.9, 1.1)`, and the
exploration draw `random.random()` of `choose_action` together with the
random action it would pick. -/
structure StepDraws where
  light : ℝ
  noise : ℝ
  drift : ℝ
  explore : ℝ
  randAct : ℕ

/-- The intervals the code draws from (lines 191-193, 226, 229, 250). -/
def StepDraws.valid (d : StepDraws) : Prop :=
  0.8 ≤ d.light ∧ d.light ≤ 1.2 ∧
  0.005 ≤ d.noise ∧ d.noise ≤ 0.05 ∧
  0.9 ≤ d.drift ∧ d.drift ≤ 1.1 ∧
  0 ≤ d.explore ∧ d.explore < 1 ∧ d.randAct ≤ 4

/-- `Environment.step` (lines 221-255): action effects, then temp drift
toward `outside_temp`, then lux drift, then the lux floor `max(lux, 50.0)`. -/
noncomputable def Environment.step (e : Environment) (action : ℤ) (d : StepDraws) :
    Environment :=
  let lux1 :=
    if action = A_LIGHT_UP then e.lux + 100 * d.light
    else if action = A_LIGHT_DOWN then e.lux - 100 * d.light
    else e.lux
  let temp1 :=
    if action = A_TEMP_UP then e.temp + (1.0 + d.noise)
    else if action = A_TEMP_DOWN then e.temp - (1.0 + d.noise)
    else e.temp
  let temp2 := temp1 + (e.outside_temp - temp1) * TEMP_DRIFT_RATE
  let lux2 := lux1 - LUX_DRIFT_RATE * d.drift
  { lux := max lux2 NATURAL_LUX_BASE, temp := temp2, outside_temp := e.outside_temp }

/-- Iterated `Environment.step` over a list of (action, draws) pairs. -/
noncomputable def Environment.stepMany (e : Environment) :
    List (ℤ × StepDraws) → Environment
  | [] => e
  | (a, d) :: rest => (e.step a d).stepMany rest

/-- `choose_action` (lines 188-200) with the draws passed explicitly: with
`random.random() < EPSILON` explore (a random action), else exploit
(`np.argmax(q_table[s, :])`). The epsilon is a parameter so the EPSILON = 0
scenario of the spec can be stated. -/
noncomputable def choose_action (eps : ℝ) (q : ℕ → ℕ → ℝ) (s : ℕ) (d : StepDraws) : ℕ :=
  if d.explore < eps then d.randAct else argmax_row q s

/-- The loop-carried state of `run_simulation` (lines 362-407): the
environment, the trainer, and the previous state/action (initially -1). -/
structure SimState where
  env : Environment
  trainer : QLearningTrainer
  s_prev : ℤ
  a_prev : ℤ

/-- One iteration of the main loop (lines 375-407): sense, reward, learn,
choose, execute, shift. -/
noncomputable def sim_iter (eps : ℝ) (st : SimState) (d : StepDraws) : SimState :=
  let s_new := get_state st.env.lux st.env.temp
  let r := calculate_reward st.env.lux st.env.temp st.a_prev
  let trainer1 := update_q_table st.trainer st.s_prev st.a_prev r s_new
  let a_new := choose_action eps trainer1.Q_table s_new d
  { env := st.env.step (a_new : ℤ) d
  , trainer := trainer1
  , s_prev := (s_new : ℤ)
  , a_prev := (a_new : ℤ) }

/-- The start of `run_simulation` (lines 366-372): fresh trainer,
environment at lux 80.0, temp 16.0, outside temp 20.0, sentinels -1. -/
noncomputable def sim_start : SimState where
  env := { lux := 80.0, temp := 16.0, outside_temp := 20.0 }
  trainer := QLearningTrainer.init
  s_prev := -1
  a_prev := -1

/-- Running the main loop over a list of per-iteration draws. -/
noncomputable def sim_run (eps : ℝ) (st : SimState) : List StepDraws → SimState
  | [] => st
  | d :: rest => sim_run eps (sim_iter eps st d) rest

/-!
Quantities for the 50-iteration stability analysis of the EPSILON = 0
training scenario. With ALPHA = 1/20 and GAMMA = 17/20 one Bellman update
maps an entry q to (19/20) q + (1/20) (r + (17/20) m), so with r in [-3, 6]
and all entries between `gbound u` and `ubound u` after u updates, the next
entry lies between `gbound (u+1)` and `ubound (u+1)`.
-/

/-- Lower bound on every Q-table entry after u updates:
-20 (1 - (397/400)^u). -/
noncomputable def gbound (u : ℕ) : ℝ := -20 * (1 - (397/400) ^ u)

/-- Upper bound on every Q-table entry after u updates:
40 - 30 (397/400)^u. -/
noncomputable def ubound (u : ℕ) : ℝ := 40 - 30 * (397/400) ^ u

/-- Lower bound on the row-1 maximum after n updates of row 1: every such
update has target at least -5.308 (see `r1_target_lb`), so the row maximum
obeys v to (19/20) v + (1/20)(-5.308). -/
noncomputable def r1bound (n : ℕ) : ℝ := -(5308/1000) * (1 - (19/20) ^ n)

/-- Lower bound on the target of an update of the seeded entry (4, IDLE)
along a transition into state 1: reward at least 0.69 plus the discounted
row-1 maximum. -/
noncomputable def dtarget (n : ℕ) : ℝ := 69/100 + (17/20) * r1bound n

/-- Lower bound on the seeded entry Q(4, IDLE) after m updates of that
entry along transitions into state 1, the row-1 maximum having been
updated n times. -/
noncomputable def phi (m n : ℕ) : ℝ := (10 - dtarget n) * (19/20) ^ m + dtarget n

/-- Where the environment reading can be one iteration after a state-4
reading was stepped with IDLE: lux in [94.5, 495.5], temp in [18.1, 23.8]. -/
def EnvBox4 (e : Environment) : Prop :=
  94.5 ≤ e.lux ∧ e.lux ≤ 495.5 ∧ 18.1 ≤ e.temp ∧ e.temp ≤ 23.8

/-- Where the environment reading can be one iteration after a state-1
reading was stepped with any action: lux in [50, 215.5], temp in
[17.1, 24.8]. -/
def EnvBox1 (e : Environment) : Prop :=
  50 ≤ e.lux ∧ e.lux ≤ 215.5 ∧ 17.1 ≤ e.temp ∧ e.temp ≤ 24.8

/-- The coupled invariant of the EPSILON = 0 training run, with u the
number of Bellman updates so far, nd of them on the entry (4, IDLE) along
transitions into state 1 (the only updates that can lower it), and n1 of
them on row 1. -/
structure InvAt (st : SimState) (u nd n1 : ℕ) : Prop where
  hsplit : nd + n1 ≤ u
  lb : ∀ s a : ℕ, gbound u ≤ st.trainer.Q_table s a
  ub : ∀ s a : ℕ, st.trainer.Q_table s a ≤ ubound u
  row4 : ∀ a : ℕ, a < 4 → st.trainer.Q_table 4 a = 0
  q44 : phi nd n1 ≤ st.trainer.Q_table 4 4
  row1 : r1bound n1 ≤ max_q st.trainer.Q_table 1
  out20 : st.env.outside_temp = 20
  luxmin : 50 ≤ st.env.lux
  link : (st.s_prev = -1 ∧ st.a_prev = -1) ∨
    (0 ≤ st.s_prev ∧ st.s_prev < 9 ∧ 0 ≤ st.a_prev ∧ st.a_prev < 5 ∧
      (st.s_prev = 4 → st.a_prev = 4 ∧ EnvBox4 st.env) ∧
      (st.s_prev = 1 → EnvBox1 st.env))

/-- The invariant after k loop iterations. -/
def Inv (st : SimState) (k : ℕ) : Prop := ∃ u nd n1 : ℕ, u ≤ k ∧ InvAt st u nd n1

/-! Basic facts about the discretizer. -/

theorem lux_bin_le_two (lux : ℝ) : lux_bin lux ≤ 2 := by
  unfold lux_bin
  split_ifs <;> norm_num

theorem temp_bin_le_two (temp : ℝ) : temp_bin temp ≤ 2 := by
  unfold temp_bin
  split_ifs <;> norm_num

theorem get_state_lt_nine (lux temp : ℝ) : get_state lux temp < 9 := by
  have h1 := lux_bin_le_two lux
  have h2 := temp_bin_le_two temp
  unfold get_state TEMP_BINS
  omega

theorem get_state_eq_four_iff (lux temp : ℝ) :
    get_state lux temp = 4 ↔ 100 < lux ∧ lux < 500 ∧ 18 < temp ∧ temp < 24 := by
  unfold get_state lux_bin temp_bin TEMP_BINS LUX_BIN_LOW_MAX LUX_BIN_HIGH_MIN
    TEMP_BIN_COLD_MAX TEMP_BIN_HOT_MIN
  split_ifs <;> constructor <;> intro h <;>
    first
      | omega
      | (obtain ⟨ha, hb, hc, hd⟩ := h; exfalso; linarith)
      | (push_neg at *; exact ⟨by linarith, by linarith, by linarith, by linarith⟩)

theorem get_state_eq_one_iff (lux temp : ℝ) :
    get_state lux temp = 1 ↔ lux ≤ 100 ∧ 18 < temp ∧ temp < 24 := by
  unfold get_state lux_bin temp_bin TEMP_BINS LUX_BIN_LOW_MAX LUX_BIN_HIGH_MIN
    TEMP_BIN_COLD_MAX TEMP_BIN_HOT_MIN
  split_ifs <;> constructor <;> intro h <;>
    first
      | omega
      | (obtain ⟨ha, hb, hc⟩ := h; exfalso; linarith)
      | (push_neg at *; exact ⟨by linarith, by linarith, by linarith⟩)

/-! Basic facts about the reward. -/

theorem calculate_reward_mem (lux temp : ℝ) (a : ℤ) :
    -3 ≤ calculate_reward lux temp a ∧ calculate_reward lux temp a ≤ 6 := by
  unfold calculate_reward
  constructor
  · have h := le_max_left (-3.0 : ℝ)
      (min 6.0 (comfort_reward lux temp + energy_cost a + shaping (get_state lux temp) a))
    linarith
  · have h := max_le (show (-3.0 : ℝ) ≤ 6.0 by norm_num)
      (min_le_left 6.0 (comfort_reward lux temp + energy_cost a + shaping (get_state lux temp) a))
    linarith

theorem comfort_reward_at_target : comfort_reward 300 21 = 1 := by
  unfold comfort_reward TARGET_LUX TARGET_TEMP REWARD_MAX_DISTANCE
  norm_num [Real.sqrt_zero]

theorem energy_cost_idle : energy_cost A_DO_NOTHING = IDLE_BONUS := by
  norm_num [energy_cost, A_DO_NOTHING]

theorem energy_cost_sentinel : energy_cost (-1) = 0 := by
  norm_num [energy_cost]

theorem energy_cost_active (a : ℤ) (h1 : a ≠ -1) (h2 : a ≠ A_DO_NOTHING) :
    energy_cost a = ACTIVE_PENALTY := by
  rw [energy_cost, if_pos h1, if_pos h2]

theorem shaping_four_idle : shaping 4 A_DO_NOTHING = 5.0 := by
  norm_num [shaping, A_DO_NOTHING]

theorem shaping_four_not_idle (a : ℤ) (h : a ≠ A_DO_NOTHING) :
    shaping 4 a = -3.0 := by
  rw [shaping, if_pos rfl, if_pos h]

/-- Outside state 4 the shaping term is 0 or -0.3. -/
theorem shaping_not_four (s : ℕ) (a : ℤ) (h : s ≠ 4) :
    shaping s a = 0 ∨ shaping s a = -0.3 := by
  rw [shaping, if_neg h]
  split_ifs <;> norm_num

/-- Outside state 4 the shaping term is at least -0.3. -/
theorem shaping_not_four_ge (s : ℕ) (a : ℤ) (h : s ≠ 4) : -0.3 ≤ shaping s a := by
  rcases shaping_not_four s a h with h0 | h0 <;> rw [h0] <;> norm_num

/-- In state 1 no elif branch of the shaping fires: the term is 0. -/
theorem shaping_one (a : ℤ) (h : a ≠ A_LIGHT_DOWN) : shaping 1 a = 0 := by
  rw [shaping]
  norm_num [h]

/-! Facts about the table update. -/

/-- The sentinel guard (lines 287-288): negative prev state or action skip
the whole update. -/
theorem update_q_table_skip (t : QLearningTrainer) (sp ap : ℤ) (r : ℝ) (sn : ℕ)
    (h : sp < 0 ∨ ap < 0) : update_q_table t sp ap r sn = t := by
  rw [update_q_table, if_pos h]

/-- The updated entry of a non-skipped update. -/
theorem update_q_table_entry (t : QLearningTrainer) (sp ap : ℤ) (r : ℝ) (sn : ℕ)
    (h : ¬(sp < 0 ∨ ap < 0)) :
    (update_q_table t sp ap r sn).Q_table sp.toNat ap.toNat =
      t.Q_table sp.toNat ap.toNat +
        ALPHA * (r + GAMMA * max_q t.Q_table sn - t.Q_table sp.toNat ap.toNat) := by
  rw [update_q_table, if_neg h]
  simp

/-- Entries other than the written one are unchanged by the update. -/
theorem update_q_table_frame (t : QLearningTrainer) (sp ap : ℤ) (r : ℝ) (sn : ℕ)
    (h : ¬(sp < 0 ∨ ap < 0)) (s a : ℕ) (hne : ¬(s = sp.toNat ∧ a = ap.toNat)) :
    (update_q_table t sp ap r sn).Q_table s a = t.Q_table s a := by
  rw [update_q_table, if_neg h]
  simp [hne]

/-! Facts about the row maximum and the row argmax. -/

theorem max_q_ge (q : ℕ → ℕ → ℝ) (s a : ℕ) (ha : a ≤ 4) : q s a ≤ max_q q s := by
  interval_cases a <;> unfold max_q <;>
    first
      | exact le_max_left _ _
      | exact le_trans (le_max_left _ _) (le_max_right _ _)
      | exact le_trans (le_trans (le_max_left _ _) (le_max_right _ _)) (le_max_right _ _)
      | exact le_trans (le_trans (le_trans (le_max_left _ _) (le_max_right _ _))
          (le_max_right _ _)) (le_max_right _ _)
      | exact le_trans (le_trans (le_trans (le_max_right _ _) (le_max_right _ _))
          (le_max_right _ _)) (le_max_right _ _)

theorem max_q_le (q : ℕ → ℕ → ℝ) (s : ℕ) (b : ℝ) (h : ∀ a : ℕ, a ≤ 4 → q s a ≤ b) :
    max_q q s ≤ b := by
  unfold max_q
  have h0 := h 0 (by norm_num)
  have h1 := h 1 (by norm_num)
  have h2 := h 2 (by norm_num)
  have h3 := h 3 (by norm_num)
  have h4 := h 4 (by norm_num)
  simp only [max_le_iff]
  exact ⟨h0, h1, h2, h3, h4⟩

theorem max_q_attained (q : ℕ → ℕ → ℝ) (s : ℕ) :
    ∃ a : ℕ, a ≤ 4 ∧ q s a = max_q q s := by
  unfold max_q
  rcases max_choice (q s 3) (q s 4) with h3 | h3 <;>
    rcases max_choice (q s 2) (max (q s 3) (q s 4)) with h2 | h2 <;>
    rcases max_choice (q s 1) (max (q s 2) (max (q s 3) (q s 4))) with h1 | h1 <;>
    rcases max_choice (q s 0) (max (q s 1) (max (q s 2) (max (q s 3) (q s 4)))) with h0 | h0 <;>
    rw [h0] <;> try rw [h1] <;> try rw [h2] <;> try rw [h3]
  all_goals first
    | exact ⟨0, by norm_num, rfl⟩
    | exact ⟨1, by norm_num, rfl⟩
    | exact ⟨2, by norm_num, rfl⟩
    | exact ⟨3, by norm_num, rfl⟩
    | exact ⟨4, by norm_num, rfl⟩

theorem argmax_row_le_four (q : ℕ → ℕ → ℝ) (s : ℕ) : argmax_row q s ≤ 4 := by
  have step : ∀ b a : ℕ, b ≤ 4 → a ≤ 4 → (if q s b < q s a then a else b) ≤ 4 := by
    intro b a hb ha
    split_ifs <;> assumption
  unfold argmax_row
  simp only [List.foldl]
  exact step _ _ (step _ _ (step _ _ (step _ _ (by norm_num) (by norm_num))
    (by norm_num)) (by norm_num)) (by norm_num)

/-- A row of the shape (0, 0, 0, 0, v) with 0 < v has argmax 4 (the last
index): numpy first-max tie-breaking keeps index 0 through the zeros and
switches on the strict increase at index 4. -/
theorem argmax_row_last (q : ℕ → ℕ → ℝ) (s : ℕ) (h0 : q s 0 = 0) (h1 : q s 1 = 0)
    (h2 : q s 2 = 0) (h3 : q s 3 = 0) (h4 : 0 < q s 4) : argmax_row q s = 4 := by
  have f1 : (if q s 0 < q s 1 then (1 : ℕ) else 0) = 0 := by
    rw [h0, h1]; exact if_neg (lt_irrefl 0)
  have f2 : (if q s 0 < q s 2 then (2 : ℕ) else 0) = 0 := by
    rw [h0, h2]; exact if_neg (lt_irrefl 0)
  have f3 : (if q s 0 < q s 3 then (3 : ℕ) else 0) = 0 := by
    rw [h0, h3]; exact if_neg (lt_irrefl 0)
  unfold argmax_row
  simp only [List.foldl]
  rw [f1, f2, f3, h0]
  exact if_pos h4

/-! The claim theorems. -/

/-- C1: for valid prev_state in [0,9), prev_action in [0,5), any reward r
and new_state in [0,9), `update_q_table` sets the entry at
(prev_state, prev_action) to old + 0.05 * (r + 0.85 * max_a Q(new_state, a)
- old) and leaves every other table entry unchanged. -/
theorem update_bellman_exact (t : QLearningTrainer) (sp ap : ℤ) (r : ℝ) (sn : ℕ)
    (hsp0 : 0 ≤ sp) (hsp9 : sp < 9) (hap0 : 0 ≤ ap) (hap5 : ap < 5) (hsn : sn < 9) :
    (update_q_table t sp ap r sn).Q_table sp.toNat ap.toNat =
      t.Q_table sp.toNat ap.toNat +
        0.05 * (r + 0.85 * max_q t.Q_table sn - t.Q_table sp.toNat ap.toNat) ∧
    ∀ s a : ℕ, ¬(s = sp.toNat ∧ a = ap.toNat) →
      (update_q_table t sp ap r sn).Q_table s a = t.Q_table s a := by
  have h : ¬(sp < 0 ∨ ap < 0) := by omega
  constructor
  · rw [update_q_table_entry t sp ap r sn h]
    norm_num [ALPHA, GAMMA]
  · intro s a hne
    exact update_q_table_frame t sp ap r sn h s a hne

theorem update_bellman_exact_witness :
    (update_q_table QLearningTrainer.init 0 0 1 0).Q_table 0 0 =
      QLearningTrainer.init.Q_table 0 0 +
        0.05 * (1 + 0.85 * max_q QLearningTrainer.init.Q_table 0 -
          QLearningTrainer.init.Q_table 0 0) ∧
    ∀ s a : ℕ, ¬(s = 0 ∧ a = 0) →
      (update_q_table QLearningTrainer.init 0 0 1 0).Q_table s a =
        QLearningTrainer.init.Q_table s a :=
  update_bellman_exact QLearningTrainer.init 0 0 1 0 (by norm_num) (by norm_num)
    (by norm_num) (by norm_num) (by norm_num)

/-- C2: for every real lux and temp and every integer previous action
(the sentinel -1 included), the reward lies in [-3.0, 6.0]. -/
theorem reward_clamped_range (lux temp : ℝ) (a_prev : ℤ) :
    -3.0 ≤ calculate_reward lux temp a_prev ∧ calculate_reward lux temp a_prev ≤ 6.0 := by
  have h := calculate_reward_mem lux temp a_prev
  constructor <;> linarith [h.1, h.2]

/-- C3: `get_state` returns lux_bin * 3 + temp_bin with both bins in
{0,1,2}, hence one state in [0,9), and the boundary readings 100.0, 500.0,
18.0, 24.0 fall in the outer bins (closed boundaries). -/
theorem classify_partition_boundaries (lux temp : ℝ) :
    (get_state lux temp = lux_bin lux * 3 + temp_bin temp ∧
      lux_bin lux ≤ 2 ∧ temp_bin temp ≤ 2 ∧ get_state lux temp < 9) ∧
    lux_bin 100.0 = 0 ∧ lux_bin 500.0 = 2 ∧ temp_bin 18.0 = 0 ∧ temp_bin 24.0 = 2 := by
  refine ⟨⟨rfl, lux_bin_le_two lux, temp_bin_le_two temp, get_state_lt_nine lux temp⟩,
    ?_, ?_, ?_, ?_⟩ <;>
    norm_num [lux_bin, temp_bin, LUX_BIN_LOW_MAX, LUX_BIN_HIGH_MIN, TEMP_BIN_COLD_MAX,
      TEMP_BIN_HOT_MIN]

/-- C4: updating with the sentinel -1 for prev_state or prev_action is a
complete no-op: the trainer (table and both counters) is unchanged. -/
theorem update_sentinel_noop (t : QLearningTrainer) (sp ap : ℤ) (r : ℝ) (sn : ℕ)
    (h : sp = -1 ∨ ap = -1) : update_q_table t sp ap r sn = t := by
  apply update_q_table_skip
  rcases h with h | h
  · exact Or.inl (by rw [h]; norm_num)
  · exact Or.inr (by rw [h]; norm_num)

theorem update_sentinel_noop_witness :
    update_q_table QLearningTrainer.init (-1) (-1) 2 3 = QLearningTrainer.init :=
  update_sentinel_noop QLearningTrainer.init (-1) (-1) 2 3 (Or.inl rfl)

/-- C5: immediately after seeding, the entry (state 4, IDLE) is 10.0, all
other entries of the 9 x 5 table are 0.0, and the greedy action of state 4
is IDLE. -/
theorem seed_table_values :
    QLearningTrainer.init.Q_table 4 4 = 10.0 ∧
    (∀ s a : ℕ, s < 9 → a < 5 → ¬(s = 4 ∧ a = 4) →
      QLearningTrainer.init.Q_table s a = 0.0) ∧
    (argmax_row QLearningTrainer.init.Q_table 4 : ℤ) = A_DO_NOTHING := by
  refine ⟨by norm_num [QLearningTrainer.init], fun s a hs ha hne => ?_, ?_⟩
  · simp [QLearningTrainer.init, hne]
  · rw [argmax_row_last QLearningTrainer.init.Q_table 4 (by norm_num [QLearningTrainer.init])
      (by norm_num [QLearningTrainer.init]) (by norm_num [QLearningTrainer.init])
      (by norm_num [QLearningTrainer.init]) (by norm_num [QLearningTrainer.init])]
    norm_num [A_DO_NOTHING]

/-- C6: after any positive number of environment steps, whatever the
actions and draws, lux is at least 50.0: the floor is applied after the
action effects and the drift on every step. -/
theorem step_lux_floor (e : Environment) (a : ℤ) (d : StepDraws)
    (rest : List (ℤ × StepDraws)) :
    50.0 ≤ ((e.step a d).stepMany rest).lux := by
  induction rest generalizing e a d with
  | nil =>
    simp only [Environment.stepMany]
    unfold Environment.step NATURAL_LUX_BASE
    exact le_trans (by norm_num) (le_max_right _ _)
  | cons p tl ih =>
    obtain ⟨a2, d2⟩ := p
    simp only [Environment.stepMany]
    exact ih (e.step a d) a2 d2

/-- C7: at the exact target reading (300 lx, 21 C, state 4) the reward with
previous action IDLE beats the reward with previous action LIGHT_UP by at
least 3.0 (in fact by 8.2, clamping notwithstanding). -/
theorem s4_idle_dominance :
    get_state 300 21 = 4 ∧
    3.0 ≤ calculate_reward 300 21 A_DO_NOTHING - calculate_reward 300 21 A_LIGHT_UP := by
  have hs : get_state 300 21 = 4 := (get_state_eq_four_iff 300 21).mpr (by norm_num)
  refine ⟨hs, ?_⟩
  have hv1 : calculate_reward 300 21 A_DO_NOTHING = 6 := by
    unfold calculate_reward
    rw [hs, comfort_reward_at_target, energy_cost_idle, shaping_four_idle]
    norm_num [IDLE_BONUS, min_def, max_def]
  have hv2 : calculate_reward 300 21 A_LIGHT_UP = -2.2 := by
    unfold calculate_reward
    rw [hs, comfort_reward_at_target,
      shaping_four_not_idle A_LIGHT_UP (by norm_num [A_LIGHT_UP, A_DO_NOTHING]),
      energy_cost_active A_LIGHT_UP (by norm_num [A_LIGHT_UP])
        (by norm_num [A_LIGHT_UP, A_DO_NOTHING])]
    norm_num [ACTIVE_PENALTY, min_def, max_def]
  rw [hv1, hv2]
  norm_num

/-- C9: outside state 4, the four directional-mismatch conditions are
pairwise exclusive, the shaping term is 0 or exactly -0.3, and the reward
is the clamp of comfort + energy + shaping. -/
theorem shaping_penalties_exclusive (lux temp : ℝ) (a : ℤ)
    (h : get_state lux temp ≠ 4) :
    (¬((get_state lux temp < 3 ∧ a = A_LIGHT_DOWN) ∧
        (5 < get_state lux temp ∧ a = A_LIGHT_UP)) ∧
     ¬((get_state lux temp < 3 ∧ a = A_LIGHT_DOWN) ∧
        ((get_state lux temp = 0 ∨ get_state lux temp = 3 ∨ get_state lux temp = 6) ∧
          a = A_TEMP_DOWN)) ∧
     ¬((get_state lux temp < 3 ∧ a = A_LIGHT_DOWN) ∧
        ((get_state lux temp = 2 ∨ get_state lux temp = 5 ∨ get_state lux temp = 8) ∧
          a = A_TEMP_UP)) ∧
     ¬((5 < get_state lux temp ∧ a = A_LIGHT_UP) ∧
        ((get_state lux temp = 0 ∨ get_state lux temp = 3 ∨ get_state lux temp = 6) ∧
          a = A_TEMP_DOWN)) ∧
     ¬((5 < get_state lux temp ∧ a = A_LIGHT_UP) ∧
        ((get_state lux temp = 2 ∨ get_state lux temp = 5 ∨ get_state lux temp = 8) ∧
          a = A_TEMP_UP)) ∧
     ¬(((get_state lux temp = 0 ∨ get_state lux temp = 3 ∨ get_state lux temp = 6) ∧
          a = A_TEMP_DOWN) ∧
        ((get_state lux temp = 2 ∨ get_state lux temp = 5 ∨ get_state lux temp = 8) ∧
          a = A_TEMP_UP))) ∧
    (shaping (get_state lux temp) a = 0 ∨ shaping (get_state lux temp) a = -0.3) ∧
    calculate_reward lux temp a =
      max (-3.0) (min 6.0
        (comfort_reward lux temp + energy_cost a + shaping (get_state lux temp) a)) := by
  refine ⟨⟨?_, ?_, ?_, ?_, ?_, ?_⟩, shaping_not_four _ a h, rfl⟩ <;>
    rintro ⟨⟨u1, u2⟩, v1, v2⟩ <;>
    simp only [A_LIGHT_UP, A_LIGHT_DOWN, A_TEMP_UP, A_TEMP_DOWN] at u2 v2 <;>
    omega

theorem shaping_penalties_exclusive_witness :
    (¬((get_state 300 17 < 3 ∧ A_TEMP_UP = A_LIGHT_DOWN) ∧
        (5 < get_state 300 17 ∧ A_TEMP_UP = A_LIGHT_UP)) ∧
     ¬((get_state 300 17 < 3 ∧ A_TEMP_UP = A_LIGHT_DOWN) ∧
        ((get_state 300 17 = 0 ∨ get_state 300 17 = 3 ∨ get_state 300 17 = 6) ∧
          A_TEMP_UP = A_TEMP_DOWN)) ∧
     ¬((get_state 300 17 < 3 ∧ A_TEMP_UP = A_LIGHT_DOWN) ∧
        ((get_state 300 17 = 2 ∨ get_state 300 17 = 5 ∨ get_state 300 17 = 8) ∧
          A_TEMP_UP = A_TEMP_UP)) ∧
     ¬((5 < get_state 300 17 ∧ A_TEMP_UP = A_LIGHT_UP) ∧
        ((get_state 300 17 = 0 ∨ get_state 300 17 = 3 ∨ get_state 300 17 = 6) ∧
          A_TEMP_UP = A_TEMP_DOWN)) ∧
     ¬((5 < get_state 300 17 ∧ A_TEMP_UP = A_LIGHT_UP) ∧
        ((get_state 300 17 = 2 ∨ get_state 300 17 = 5 ∨ get_state 300 17 = 8) ∧
          A_TEMP_UP = A_TEMP_UP)) ∧
     ¬(((get_state 300 17 = 0 ∨ get_state 300 17 = 3 ∨ get_state 300 17 = 6) ∧
          A_TEMP_UP = A_TEMP_DOWN) ∧
        ((get_state 300 17 = 2 ∨ get_state 300 17 = 5 ∨ get_state 300 17 = 8) ∧
          A_TEMP_UP = A_TEMP_UP))) ∧
    (shaping (get_state 300 17) A_TEMP_UP = 0 ∨
      shaping (get_state 300 17) A_TEMP_UP = -0.3) ∧
    calculate_reward 300 17 A_TEMP_UP =
      max (-3.0) (min 6.0
        (comfort_reward 300 17 + energy_cost A_TEMP_UP +
          shaping (get_state 300 17) A_TEMP_UP)) :=
  shaping_penalties_exclusive 300 17 A_TEMP_UP
    (by rw [Ne, get_state_eq_four_iff]; norm_num)

/-- C10: at a state-4 reading with the sentinel previous action -1 (the very
first step), the energy term is zero but the S4 shaping applies the -3.0
penalty (the sentinel is treated like a non-IDLE action). -/
theorem sentinel_state4_penalty (lux temp : ℝ) (h : get_state lux temp = 4) :
    energy_cost (-1) = 0 ∧
    shaping (get_state lux temp) (-1) = -3.0 ∧
    calculate_reward lux temp (-1) =
      max (-3.0) (min 6.0 (comfort_reward lux temp + 0 + -3.0)) := by
  have hsh : shaping (get_state lux temp) (-1) = -3.0 := by
    rw [h]
    exact shaping_four_not_idle (-1) (by norm_num [A_DO_NOTHING])
  refine ⟨energy_cost_sentinel, hsh, ?_⟩
  unfold calculate_reward
  rw [energy_cost_sentinel, hsh]

theorem sentinel_state4_penalty_witness :
    energy_cost (-1) = 0 ∧
    shaping (get_state 300 21) (-1) = -3.0 ∧
    calculate_reward 300 21 (-1) =
      max (-3.0) (min 6.0 (comfort_reward 300 21 + 0 + -3.0)) :=
  sentinel_state4_penalty 300 21 ((get_state_eq_four_iff 300 21).mpr (by norm_num))

/-! Arithmetic facts about the bound sequences. -/

theorem gbound_zero : gbound 0 = 0 := by norm_num [gbound]

theorem gbound_succ (u : ℕ) : gbound (u + 1) = (397/400) * gbound u - 3/20 := by
  unfold gbound
  rw [pow_succ]
  ring

theorem gbound_mono (u v : ℕ) (h : u ≤ v) : gbound v ≤ gbound u := by
  unfold gbound
  have hp := pow_le_pow_of_le_one (by norm_num : (0:ℝ) ≤ 397/400)
    (by norm_num : (397/400:ℝ) ≤ 1) h
  linarith

theorem gbound_le_zero (u : ℕ) : gbound u ≤ 0 := by
  unfold gbound
  have hp : ((397:ℝ)/400) ^ u ≤ 1 :=
    pow_le_one₀ (by norm_num) (by norm_num)
  linarith

theorem gbound_fifty : (-6.28 : ℝ) ≤ gbound 50 := by
  unfold gbound
  have hp : (686/1000 : ℝ) ≤ (397/400) ^ 50 := by norm_num
  linarith

theorem ubound_zero : ubound 0 = 10 := by norm_num [ubound]

theorem ubound_succ (u : ℕ) : ubound (u + 1) = (397/400) * ubound u + 3/10 := by
  unfold ubound
  rw [pow_succ]
  ring

theorem ubound_mono (u v : ℕ) (h : u ≤ v) : ubound u ≤ ubound v := by
  unfold ubound
  have hp := pow_le_pow_of_le_one (by norm_num : (0:ℝ) ≤ 397/400)
    (by norm_num : (397/400:ℝ) ≤ 1) h
  linarith

theorem ubound_le_forty (u : ℕ) : ubound u ≤ 40 := by
  unfold ubound
  have hp := pow_nonneg (by norm_num : (0:ℝ) ≤ 397/400) u
  linarith

theorem r1bound_zero : r1bound 0 = 0 := by norm_num [r1bound]

theorem r1bound_succ (n : ℕ) :
    r1bound (n + 1) = (19/20) * r1bound n + (1/20) * (-(5308/1000)) := by
  unfold r1bound
  rw [pow_succ]
  ring

theorem r1bound_mono (n m : ℕ) (h : n ≤ m) : r1bound m ≤ r1bound n := by
  unfold r1bound
  have hp := pow_le_pow_of_le_one (by norm_num : (0:ℝ) ≤ 19/20)
    (by norm_num : (19/20:ℝ) ≤ 1) h
  linarith

theorem r1bound_ge (n : ℕ) : -(5308/1000) ≤ r1bound n := by
  unfold r1bound
  have hp := pow_nonneg (by norm_num : (0:ℝ) ≤ 19/20) n
  linarith

theorem r1bound_le_zero (n : ℕ) : r1bound n ≤ 0 := by
  unfold r1bound
  have hp : ((19:ℝ)/20) ^ n ≤ 1 :=
    pow_le_one₀ (by norm_num) (by norm_num)
  linarith

theorem dtarget_le (n : ℕ) : dtarget n ≤ 69/100 := by
  unfold dtarget
  have h := r1bound_le_zero n
  linarith

theorem dtarget_mono (n m : ℕ) (h : n ≤ m) : dtarget m ≤ dtarget n := by
  unfold dtarget
  have hr := r1bound_mono n m h
  linarith

theorem phi_zero : phi 0 0 = 10 := by
  unfold phi
  norm_num

theorem phi_succ_down (m n : ℕ) :
    phi (m + 1) n = (19/20) * phi m n + (1/20) * dtarget n := by
  unfold phi
  rw [pow_succ]
  ring

theorem phi_mono_n (m n : ℕ) : phi m (n + 1) ≤ phi m n := by
  unfold phi
  have hT := dtarget_mono n (n + 1) (by omega)
  have hx1 : ((19:ℝ)/20) ^ m ≤ 1 :=
    pow_le_one₀ (by norm_num) (by norm_num)
  nlinarith [mul_nonneg (sub_nonneg.mpr hT) (sub_nonneg.mpr hx1)]

theorem phi_le_ten (m n : ℕ) : phi m n ≤ 10 := by
  unfold phi
  have hT := dtarget_le n
  have hx1 : ((19:ℝ)/20) ^ m ≤ 1 :=
    pow_le_one₀ (by norm_num) (by norm_num)
  have hx0 : (0:ℝ) ≤ ((19:ℝ)/20) ^ m := pow_nonneg (by norm_num) m
  nlinarith [mul_nonneg (sub_nonneg.mpr hT) (sub_nonneg.mpr hx1)]

/-- Lower bound on the comfort term from a bound on the squared scaled
distance. -/
theorem comfort_reward_ge (lux temp D : ℝ) (hD : 0 ≤ D)
    (h : (|lux - 300| / 100) ^ 2 + |temp - 21| ^ 2 ≤ D ^ 2) :
    1 - D / 10 ≤ comfort_reward lux temp := by
  unfold comfort_reward TARGET_LUX TARGET_TEMP REWARD_MAX_DISTANCE
  have hs : Real.sqrt ((|lux - 300| / 100) ^ 2 + |temp - 21| ^ 2) ≤ D :=
    (Real.sqrt_le_left hD).mpr h
  linarith

theorem comfort_reward_le_one (lux temp : ℝ) : comfort_reward lux temp ≤ 1 := by
  unfold comfort_reward TARGET_LUX TARGET_TEMP REWARD_MAX_DISTANCE
  have hs := Real.sqrt_nonneg ((|lux - 300| / 100) ^ 2 + |temp - 21| ^ 2)
  linarith

/-- The energy term is at least the active penalty for any genuine action. -/
theorem energy_cost_ge (a : ℤ) (h : 0 ≤ a) : -0.2 ≤ energy_cost a := by
  unfold energy_cost ACTIVE_PENALTY IDLE_BONUS
  split_ifs <;> norm_num

/-- In state 4 the shaping is -3 or +5, so at least -3. -/
theorem shaping_four_ge (a : ℤ) : -3 ≤ shaping 4 a := by
  unfold shaping
  split_ifs <;> norm_num

/-- Unclamped rewards below the ceiling pass `max/min` untouched from
below: the clamp keeps any lower bound not above 6. -/
theorem calculate_reward_ge (lux temp : ℝ) (a : ℤ) (lo : ℝ) (hlo : lo ≤ 6)
    (h : lo ≤ comfort_reward lux temp + energy_cost a +
      shaping (get_state lux temp) a) :
    lo ≤ calculate_reward lux temp a := by
  unfold calculate_reward
  have h1 : lo ≤ min 6.0
      (comfort_reward lux temp + energy_cost a + shaping (get_state lux temp) a) := by
    refine le_min ?_ h
    norm_num
    linarith
  exact le_trans h1 (le_max_right _ _)

/-- Reward of a state-4 reading with previous action IDLE: at least 5.6. -/
theorem r_up (lux temp : ℝ) (h : get_state lux temp = 4) :
    5.6 ≤ calculate_reward lux temp A_DO_NOTHING := by
  obtain ⟨h1, h2, h3, h4⟩ := (get_state_eq_four_iff lux temp).mp h
  have hc : 1 - 3.7 / 10 ≤ comfort_reward lux temp := by
    apply comfort_reward_ge lux temp 3.7 (by norm_num)
    have hl0 : (0:ℝ) ≤ |lux - 300| := abs_nonneg _
    have hl : |lux - 300| ≤ 200 := abs_le.mpr ⟨by linarith, by linarith⟩
    have ht0 : (0:ℝ) ≤ |temp - 21| := abs_nonneg _
    have ht : |temp - 21| ≤ 3 := abs_le.mpr ⟨by linarith, by linarith⟩
    nlinarith
  apply calculate_reward_ge lux temp A_DO_NOTHING 5.6 (by norm_num)
  rw [h, shaping_four_idle, energy_cost_idle, IDLE_BONUS]
  linarith

/-- The comfort term of any reading in the one-step box around a state-1
reading is at least 1 - 4.64 / 10. -/
theorem comfort_box1 (lux temp : ℝ) (hl1 : 50 ≤ lux) (hl2 : lux ≤ 215.5)
    (ht1 : 17.1 ≤ temp) (ht2 : temp ≤ 24.8) :
    1 - 4.64 / 10 ≤ comfort_reward lux temp := by
  apply comfort_reward_ge lux temp 4.64 (by norm_num)
  have hl0 : (0:ℝ) ≤ |lux - 300| := abs_nonneg _
  have hl : |lux - 300| ≤ 250 := abs_le.mpr ⟨by linarith, by linarith⟩
  have ht0 : (0:ℝ) ≤ |temp - 21| := abs_nonneg _
  have ht : |temp - 21| ≤ 3.9 := abs_le.mpr ⟨by linarith, by linarith⟩
  nlinarith

/-- Reward of a state-1 reading reached from a state-4 reading by an IDLE
step: at least 0.69. -/
theorem r_down (lux temp : ℝ) (hl1 : 94.5 ≤ lux) (hl2 : lux ≤ 100)
    (ht1 : 18.1 ≤ temp) (ht2 : temp ≤ 23.8) :
    0.69 ≤ calculate_reward lux temp A_DO_NOTHING := by
  have hs : get_state lux temp = 1 :=
    (get_state_eq_one_iff lux temp).mpr ⟨hl2, by linarith, by linarith⟩
  have hc : 1 - 3.56 / 10 ≤ comfort_reward lux temp := by
    apply comfort_reward_ge lux temp 3.56 (by norm_num)
    have hl0 : (0:ℝ) ≤ |lux - 300| := abs_nonneg _
    have hl : |lux - 300| ≤ 205.5 := abs_le.mpr ⟨by linarith, by linarith⟩
    have ht0 : (0:ℝ) ≤ |temp - 21| := abs_nonneg _
    have ht : |temp - 21| ≤ 2.9 := abs_le.mpr ⟨by linarith, by linarith⟩
    nlinarith
  apply calculate_reward_ge lux temp A_DO_NOTHING 0.69 (by norm_num)
  rw [hs, shaping_one A_DO_NOTHING (by norm_num [A_DO_NOTHING, A_LIGHT_DOWN]),
    energy_cost_idle, IDLE_BONUS]
  linarith

/-- Reward of a state-4 reading reached by one step out of a state-1
reading, for any genuine previous action: at least -2.67. -/
theorem r_box1_s4 (lux temp : ℝ) (a : ℤ) (ha : 0 ≤ a)
    (hl1 : 50 ≤ lux) (hl2 : lux ≤ 215.5) (ht1 : 17.1 ≤ temp) (ht2 : temp ≤ 24.8)
    (h4 : get_state lux temp = 4) :
    -2.67 ≤ calculate_reward lux temp a := by
  have hc := comfort_box1 lux temp hl1 hl2 ht1 ht2
  apply calculate_reward_ge lux temp a (-2.67) (by norm_num)
  rw [h4]
  have he := energy_cost_ge a ha
  have hsh := shaping_four_ge a
  linarith

/-- Reward of a non-state-4 reading reached by one step out of a state-1
reading, for any genuine previous action: at least 0.03. -/
theorem r_box1_other (lux temp : ℝ) (a : ℤ) (ha : 0 ≤ a)
    (hl1 : 50 ≤ lux) (hl2 : lux ≤ 215.5) (ht1 : 17.1 ≤ temp) (ht2 : temp ≤ 24.8)
    (hne : get_state lux temp ≠ 4) :
    0.03 ≤ calculate_reward lux temp a := by
  have hc := comfort_box1 lux temp hl1 hl2 ht1 ht2
  apply calculate_reward_ge lux temp a 0.03 (by norm_num)
  have he := energy_cost_ge a ha
  have hsh := shaping_not_four_ge (get_state lux temp) a hne
  linarith

/-! Facts about single environment steps. -/

theorem step_outside (e : Environment) (a : ℤ) (d : StepDraws) :
    (e.step a d).outside_temp = e.outside_temp := rfl

theorem step_lux_ge (e : Environment) (a : ℤ) (d : StepDraws) :
    50 ≤ (e.step a d).lux := by
  unfold Environment.step NATURAL_LUX_BASE
  exact le_trans (by norm_num) (le_max_right _ _)

/-- Stepping a state-4 reading with IDLE lands in the state-4 one-step box. -/
theorem step4_box (e : Environment) (d : StepDraws) (hd : d.valid)
    (hout : e.outside_temp = 20) (h : get_state e.lux e.temp = 4) :
    EnvBox4 (e.step A_DO_NOTHING d) := by
  obtain ⟨h1, h2, h3, h4⟩ := (get_state_eq_four_iff e.lux e.temp).mp h
  obtain ⟨hb1, hb2, hb3, hb4, hb5, hb6, hb7, hb8, hb9⟩ := hd
  unfold EnvBox4 Environment.step A_DO_NOTHING A_LIGHT_UP A_LIGHT_DOWN A_TEMP_UP
    A_TEMP_DOWN TEMP_DRIFT_RATE LUX_DRIFT_RATE NATURAL_LUX_BASE
  norm_num [hout]
  first
    | exact ⟨by linarith, by linarith, by linarith, by linarith⟩
    | exact ⟨by linarith, by linarith, by linarith⟩
    | exact ⟨by linarith, by linarith⟩
    | linarith

/-- Stepping a state-1 reading with any of the five actions lands in the
state-1 one-step box. -/
theorem step1_box (e : Environment) (d : StepDraws) (a : ℤ) (hd : d.valid)
    (hout : e.outside_temp = 20) (h : get_state e.lux e.temp = 1)
    (hlux : 50 ≤ e.lux) (ha0 : 0 ≤ a) (ha5 : a < 5) :
    EnvBox1 (e.step a d) := by
  obtain ⟨h1, h2, h3⟩ := (get_state_eq_one_iff e.lux e.temp).mp h
  obtain ⟨hb1, hb2, hb3, hb4, hb5, hb6, hb7, hb8, hb9⟩ := hd
  unfold EnvBox1 Environment.step A_LIGHT_UP A_LIGHT_DOWN A_TEMP_UP
    A_TEMP_DOWN TEMP_DRIFT_RATE LUX_DRIFT_RATE NATURAL_LUX_BASE
  interval_cases a <;> norm_num [hout] <;>
    first
      | exact ⟨by linarith, by linarith, by linarith, by linarith⟩
      | exact ⟨by linarith, by linarith, by linarith⟩
      | exact ⟨by linarith, by linarith⟩
      | linarith

/-- One step after a reading inside the state-4 box, the state is 1 or 4. -/
theorem state_of_box4 (e : Environment) (hbox : EnvBox4 e) :
    get_state e.lux e.temp = 1 ∨ get_state e.lux e.temp = 4 := by
  obtain ⟨h1, h2, h3, h4⟩ := hbox
  rcases le_or_lt e.lux 100 with hl | hl
  · exact Or.inl ((get_state_eq_one_iff e.lux e.temp).mpr ⟨hl, by linarith, by linarith⟩)
  · exact Or.inr ((get_state_eq_four_iff e.lux e.temp).mpr
      ⟨hl, by linarith, by linarith, by linarith⟩)

theorem phi_pos (m n : ℕ) (h : m + n ≤ 50) : 0 < phi m n := by
  have hx0 : (0:ℝ) < ((19:ℝ)/20) ^ m := pow_pos (by norm_num) m
  have hy0 : (0:ℝ) < ((19:ℝ)/20) ^ n := pow_pos (by norm_num) n
  have hx1 : ((19:ℝ)/20) ^ m ≤ 1 := pow_le_one₀ (by norm_num) (by norm_num)
  have hy1 : ((19:ℝ)/20) ^ n ≤ 1 := pow_le_one₀ (by norm_num) (by norm_num)
  have hxy : ((19:ℝ)/20) ^ 50 ≤ ((19:ℝ)/20) ^ m * ((19:ℝ)/20) ^ n := by
    rw [← pow_add]
    exact pow_le_pow_of_le_one (by norm_num) (by norm_num) h
  have hc : (769/10000 : ℝ) ≤ ((19:ℝ)/20) ^ 50 := by norm_num
  unfold phi dtarget r1bound
  set x := ((19:ℝ)/20) ^ m with hxdef
  set y := ((19:ℝ)/20) ^ n with hydef
  have key : (0:ℝ) ≤ (1 - x) * (x * y - 769/10000) :=
    mul_nonneg (by linarith) (by linarith)
  have hquad : (0:ℝ) <
      (138218/10000) * x ^ 2 - (416875742/100000000) * x + 34695742/100000000 := by
    nlinarith [sq_nonneg ((2764360000:ℝ) * x - 416875742)]
  by_contra hG
  push_neg at hG
  nlinarith [hquad, key, hG, hx0]

/-! Machinery for the invariant of the EPSILON = 0 training run. -/

theorem max_q_congr (q q2 : ℕ → ℕ → ℝ) (s : ℕ) (h : ∀ a : ℕ, a ≤ 4 → q2 s a = q s a) :
    max_q q2 s = max_q q s := by
  unfold max_q
  rw [h 0 (by norm_num), h 1 (by norm_num), h 2 (by norm_num), h 3 (by norm_num),
    h 4 (by norm_num)]

/-- With EPSILON = 0 and a nonnegative exploration draw, one loop iteration
senses, rewards, updates and then greedily steps. -/
theorem sim_iter_greedy (st : SimState) (d : StepDraws) (h : 0 ≤ d.explore) :
    sim_iter 0 st d =
      { env := st.env.step
          ((argmax_row (update_q_table st.trainer st.s_prev st.a_prev
              (calculate_reward st.env.lux st.env.temp st.a_prev)
              (get_state st.env.lux st.env.temp)).Q_table
            (get_state st.env.lux st.env.temp) : ℤ)) d
      , trainer := update_q_table st.trainer st.s_prev st.a_prev
          (calculate_reward st.env.lux st.env.temp st.a_prev)
          (get_state st.env.lux st.env.temp)
      , s_prev := (get_state st.env.lux st.env.temp : ℤ)
      , a_prev := (argmax_row (update_q_table st.trainer st.s_prev st.a_prev
          (calculate_reward st.env.lux st.env.temp st.a_prev)
          (get_state st.env.lux st.env.temp)).Q_table
            (get_state st.env.lux st.env.temp) : ℤ) } := by
  have hn : ¬ (d.explore < 0) := not_lt.mpr h
  simp only [sim_iter, choose_action, if_neg hn]

/-- One Bellman update with a clamped reward moves the uniform entry
bounds from step u to step u + 1. -/
theorem update_bounds (t : QLearningTrainer) (sp ap : ℤ) (r : ℝ) (sn : ℕ) (u : ℕ)
    (h : ¬(sp < 0 ∨ ap < 0)) (hr1 : -3 ≤ r) (hr2 : r ≤ 6)
    (hlb : ∀ s a : ℕ, gbound u ≤ t.Q_table s a)
    (hub : ∀ s a : ℕ, t.Q_table s a ≤ ubound u) :
    (∀ s a : ℕ, gbound (u + 1) ≤ (update_q_table t sp ap r sn).Q_table s a) ∧
    (∀ s a : ℕ, (update_q_table t sp ap r sn).Q_table s a ≤ ubound (u + 1)) := by
  have hm1 : gbound u ≤ max_q t.Q_table sn :=
    le_trans (hlb sn 0) (max_q_ge t.Q_table sn 0 (by norm_num))
  have hm2 : max_q t.Q_table sn ≤ ubound u :=
    max_q_le t.Q_table sn _ (fun a _ => hub sn a)
  constructor <;> intro s a
  · by_cases hsa : s = sp.toNat ∧ a = ap.toNat
    · obtain ⟨hs, ha⟩ := hsa
      subst hs; subst ha
      rw [update_q_table_entry t sp ap r sn h, gbound_succ]
      have h1 := hlb sp.toNat ap.toNat
      unfold ALPHA GAMMA
      linarith
    · rw [update_q_table_frame t sp ap r sn h s a hsa]
      exact le_trans (gbound_mono u (u + 1) (by omega)) (hlb s a)
  · by_cases hsa : s = sp.toNat ∧ a = ap.toNat
    · obtain ⟨hs, ha⟩ := hsa
      subst hs; subst ha
      rw [update_q_table_entry t sp ap r sn h, ubound_succ]
      have h1 := hub sp.toNat ap.toNat
      unfold ALPHA GAMMA
      linarith
    · rw [update_q_table_frame t sp ap r sn h s a hsa]
      exact le_trans (hub s a) (ubound_mono u (u + 1) (by omega))

/-- The new s_prev/a_prev/env fields after a greedy iteration satisfy the
link clause of the invariant, given the seeded row shape. -/
theorem link_next (e : Environment) (q : ℕ → ℕ → ℝ) (d : StepDraws) (sn an : ℕ)
    (hd : d.valid) (hout : e.outside_temp = 20) (hlux : 50 ≤ e.lux)
    (hsn : sn = get_state e.lux e.temp) (han : an = argmax_row q sn)
    (h40 : ∀ a : ℕ, a < 4 → q 4 a = 0) (h44 : 0 < q 4 4) :
    0 ≤ (sn : ℤ) ∧ (sn : ℤ) < 9 ∧ 0 ≤ (an : ℤ) ∧ (an : ℤ) < 5 ∧
    ((sn : ℤ) = 4 → (an : ℤ) = 4 ∧ EnvBox4 (e.step (an : ℤ) d)) ∧
    ((sn : ℤ) = 1 → EnvBox1 (e.step (an : ℤ) d)) := by
  have hsn9 : sn < 9 := by rw [hsn]; exact get_state_lt_nine e.lux e.temp
  have han4 : an ≤ 4 := by rw [han]; exact argmax_row_le_four q sn
  refine ⟨by omega, by omega, by omega, by omega, ?_, ?_⟩
  · intro h4
    have hsn4 : sn = 4 := by omega
    have han' : an = 4 := by
      rw [han, hsn4]
      exact argmax_row_last q 4 (h40 0 (by norm_num)) (h40 1 (by norm_num))
        (h40 2 (by norm_num)) (h40 3 (by norm_num)) h44
    refine ⟨by omega, ?_⟩
    have hgs : get_state e.lux e.temp = 4 := by rw [← hsn, hsn4]
    have hcast : ((an : ℕ) : ℤ) = A_DO_NOTHING := by rw [han']; rfl
    rw [hcast]
    exact step4_box e d hd hout hgs
  · intro h1
    have hsn1 : sn = 1 := by omega
    have hgs : get_state e.lux e.temp = 1 := by rw [← hsn, hsn1]
    exact step1_box e d (an : ℤ) hd hout hgs hlux (by omega) (by omega)

/-- One greedy loop iteration preserves the invariant (core form, on the
destructured state). -/
theorem inv_step_core (tr : QLearningTrainer) (e : Environment) (sp ap : ℤ)
    (d : StepDraws) (k u nd n1 : ℕ) (hk : k < 50) (hd : d.valid) (huk : u ≤ k)
    (hsplit : nd + n1 ≤ u)
    (hlb : ∀ s a : ℕ, gbound u ≤ tr.Q_table s a)
    (hub : ∀ s a : ℕ, tr.Q_table s a ≤ ubound u)
    (hrow4 : ∀ a : ℕ, a < 4 → tr.Q_table 4 a = 0)
    (hq44 : phi nd n1 ≤ tr.Q_table 4 4)
    (hrow1 : r1bound n1 ≤ max_q tr.Q_table 1)
    (hout : e.outside_temp = 20) (hluxmin : 50 ≤ e.lux)
    (hlink : (sp = -1 ∧ ap = -1) ∨
      (0 ≤ sp ∧ sp < 9 ∧ 0 ≤ ap ∧ ap < 5 ∧
        (sp = 4 → ap = 4 ∧ EnvBox4 e) ∧ (sp = 1 → EnvBox1 e))) :
    Inv { env := e.step
            ((argmax_row (update_q_table tr sp ap (calculate_reward e.lux e.temp ap)
                (get_state e.lux e.temp)).Q_table (get_state e.lux e.temp) : ℤ)) d
        , trainer := update_q_table tr sp ap (calculate_reward e.lux e.temp ap)
            (get_state e.lux e.temp)
        , s_prev := (get_state e.lux e.temp : ℤ)
        , a_prev := (argmax_row (update_q_table tr sp ap
            (calculate_reward e.lux e.temp ap)
            (get_state e.lux e.temp)).Q_table (get_state e.lux e.temp) : ℤ) }
      (k + 1) := by
  set sn := get_state e.lux e.temp with hsn
  set r := calculate_reward e.lux e.temp ap with hrdef
  set t1 := update_q_table tr sp ap r sn with ht1
  set an := argmax_row t1.Q_table sn with handef
  rcases hlink with ⟨hsp, hap⟩ | ⟨hsp0, hsp9, hap0, hap5, hlink4, hlink1⟩
  · -- the very first iteration: the update is skipped
    have hskip : t1 = tr := by
      rw [ht1, hsp]
      exact update_q_table_skip tr _ _ _ _ (Or.inl (by norm_num))
    have h44pos : 0 < t1.Q_table 4 4 := by
      rw [hskip]
      exact lt_of_lt_of_le (phi_pos nd n1 (by omega)) hq44
    have h40 : ∀ a : ℕ, a < 4 → t1.Q_table 4 a = 0 := by
      rw [hskip]; exact hrow4
    refine ⟨u, nd, n1, by omega, ⟨hsplit, ?_, ?_, ?_, ?_, ?_, ?_, ?_, ?_⟩⟩
    · show ∀ s a : ℕ, gbound u ≤ t1.Q_table s a
      rw [hskip]; exact hlb
    · show ∀ s a : ℕ, t1.Q_table s a ≤ ubound u
      rw [hskip]; exact hub
    · exact h40
    · show phi nd n1 ≤ t1.Q_table 4 4
      rw [hskip]; exact hq44
    · show r1bound n1 ≤ max_q t1.Q_table 1
      rw [hskip]; exact hrow1
    · show (e.step (an : ℤ) d).outside_temp = 20
      rw [step_outside]; exact hout
    · exact step_lux_ge e (an : ℤ) d
    · exact Or.inr (link_next e t1.Q_table d sn an hd hout hluxmin hsn handef h40 h44pos)
  · -- a genuine update
    have hno : ¬(sp < 0 ∨ ap < 0) := by omega
    have hrmem : -3 ≤ r ∧ r ≤ 6 := by
      rw [hrdef]; exact calculate_reward_mem e.lux e.temp ap
    have hentry : t1.Q_table sp.toNat ap.toNat =
        tr.Q_table sp.toNat ap.toNat +
          ALPHA * (r + GAMMA * max_q tr.Q_table sn - tr.Q_table sp.toNat ap.toNat) := by
      rw [ht1]; exact update_q_table_entry tr sp ap r sn hno
    have hframe : ∀ s a : ℕ, ¬(s = sp.toNat ∧ a = ap.toNat) →
        t1.Q_table s a = tr.Q_table s a := by
      rw [ht1]; exact update_q_table_frame tr sp ap r sn hno
    have hbnds : (∀ s a : ℕ, gbound (u + 1) ≤ t1.Q_table s a) ∧
        (∀ s a : ℕ, t1.Q_table s a ≤ ubound (u + 1)) := by
      rw [ht1]; exact update_bounds tr sp ap r sn u hno hrmem.1 hrmem.2 hlb hub
    by_cases hsp4 : sp = 4
    · -- update of the seeded entry (4, IDLE)
      obtain ⟨hap4, hbox⟩ := hlink4 hsp4
      have hspN : sp.toNat = 4 := by omega
      have hapN : ap.toNat = 4 := by omega
      rw [hspN, hapN] at hentry hframe
      have hrow4n : ∀ a : ℕ, a < 4 → t1.Q_table 4 a = 0 := by
        intro a ha
        rw [hframe 4 a (by omega)]
        exact hrow4 a ha
      have hrow1n : max_q t1.Q_table 1 = max_q tr.Q_table 1 :=
        max_q_congr tr.Q_table t1.Q_table 1 (fun a _ => hframe 1 a (by omega))
      rcases state_of_box4 e hbox with hgs1 | hgs4
      · -- down-update: the next reading is state 1
        have hsneq : sn = 1 := by rw [hsn]; exact hgs1
        rw [hsneq] at hentry
        obtain ⟨hbx1, hbx2, hbx3, hbx4⟩ := hbox
        obtain ⟨hle100, _, _⟩ := (get_state_eq_one_iff e.lux e.temp).mp hgs1
        have h69 : 0.69 ≤ r := by
          rw [hrdef, hap4]
          exact r_down e.lux e.temp hbx1 hle100 hbx3 hbx4
        have hq44n : phi (nd + 1) n1 ≤ t1.Q_table 4 4 := by
          rw [hentry, phi_succ_down]
          unfold ALPHA GAMMA dtarget
          linarith [hq44, hrow1, h69]
        have h44pos : 0 < t1.Q_table 4 4 :=
          lt_of_lt_of_le (phi_pos (nd + 1) n1 (by omega)) hq44n
        refine ⟨u + 1, nd + 1, n1, by omega, ⟨by omega, hbnds.1, hbnds.2, hrow4n, hq44n,
          ?_, ?_, ?_, ?_⟩⟩
        · show r1bound n1 ≤ max_q t1.Q_table 1
          rw [hrow1n]; exact hrow1
        · show (e.step (an : ℤ) d).outside_temp = 20
          rw [step_outside]; exact hout
        · exact step_lux_ge e (an : ℤ) d
        · exact Or.inr (link_next e t1.Q_table d sn an hd hout hluxmin hsn handef
            hrow4n h44pos)
      · -- up-update: the next reading is state 4 again
        have hsneq : sn = 4 := by rw [hsn]; exact hgs4
        rw [hsneq] at hentry
        have h56 : 5.6 ≤ r := by
          rw [hrdef, hap4]
          exact r_up e.lux e.temp hgs4
        have hm0 : 0 ≤ max_q tr.Q_table 4 := by
          have h0 := max_q_ge tr.Q_table 4 0 (by norm_num)
          rw [hrow4 0 (by norm_num)] at h0
          exact h0
        have hmge : tr.Q_table 4 4 ≤ max_q tr.Q_table 4 :=
          max_q_ge tr.Q_table 4 4 (by norm_num)
        have hq44n : phi nd n1 ≤ t1.Q_table 4 4 := by
          rw [hentry]
          rcases le_or_lt (tr.Q_table 4 4) 37 with hc | hc
          · unfold ALPHA GAMMA
            linarith [hq44, h56, hmge, hm0]
          · have hp10 := phi_le_ten nd n1
            unfold ALPHA GAMMA
            linarith [h56, hmge, hm0, hc, hp10]
        have h44pos : 0 < t1.Q_table 4 4 :=
          lt_of_lt_of_le (phi_pos nd n1 (by omega)) hq44n
        refine ⟨u + 1, nd, n1, by omega, ⟨by omega, hbnds.1, hbnds.2, hrow4n, hq44n,
          ?_, ?_, ?_, ?_⟩⟩
        · show r1bound n1 ≤ max_q t1.Q_table 1
          rw [hrow1n]; exact hrow1
        · show (e.step (an : ℤ) d).outside_temp = 20
          rw [step_outside]; exact hout
        · exact step_lux_ge e (an : ℤ) d
        · exact Or.inr (link_next e t1.Q_table d sn an hd hout hluxmin hsn handef
            hrow4n h44pos)
    · by_cases hsp1 : sp = 1
      · -- update of row 1
        have hbox1 := hlink1 hsp1
        obtain ⟨hbx1, hbx2, hbx3, hbx4⟩ := hbox1
        have hspN : sp.toNat = 1 := by omega
        have haple : ap.toNat ≤ 4 := by omega
        rw [hspN] at hentry hframe
        have htarget : -(5308/1000) ≤ r + (17/20) * max_q tr.Q_table sn := by
          by_cases hsn4 : get_state e.lux e.temp = 4
          · have hr1 : -2.67 ≤ r := by
              rw [hrdef]
              exact r_box1_s4 e.lux e.temp ap hap0 hbx1 hbx2 hbx3 hbx4 hsn4
            have hm : 0 ≤ max_q tr.Q_table sn := by
              rw [hsn, hsn4]
              have h0 := max_q_ge tr.Q_table 4 0 (by norm_num)
              rw [hrow4 0 (by norm_num)] at h0
              exact h0
            linarith
          · have hr1 : 0.03 ≤ r := by
              rw [hrdef]
              exact r_box1_other e.lux e.temp ap hap0 hbx1 hbx2 hbx3 hbx4 hsn4
            have hm : gbound 50 ≤ max_q tr.Q_table sn :=
              le_trans (gbound_mono u 50 (by omega))
                (le_trans (hlb sn 0) (max_q_ge tr.Q_table sn 0 (by norm_num)))
            have hg := gbound_fifty
            linarith
        have hrow4n : ∀ a : ℕ, a < 4 → t1.Q_table 4 a = 0 := by
          intro a ha
          rw [hframe 4 a (by omega)]
          exact hrow4 a ha
        have hq44n : phi nd (n1 + 1) ≤ t1.Q_table 4 4 := by
          rw [hframe 4 4 (by omega)]
          exact le_trans (phi_mono_n nd n1) hq44
        have h44pos : 0 < t1.Q_table 4 4 :=
          lt_of_lt_of_le (phi_pos nd (n1 + 1) (by omega)) hq44n
        have hrow1n : r1bound (n1 + 1) ≤ max_q t1.Q_table 1 := by
          obtain ⟨a0, ha0le, ha0eq⟩ := max_q_attained tr.Q_table 1
          by_cases hc : a0 = ap.toNat
          · have hQ1 : tr.Q_table 1 ap.toNat = max_q tr.Q_table 1 := by
              rw [← hc]; exact ha0eq
            have hup := max_q_ge t1.Q_table 1 ap.toNat haple
            rw [hentry, hQ1] at hup
            rw [r1bound_succ]
            unfold ALPHA GAMMA at hup
            linarith [hrow1, htarget, hup]
          · have hfr : t1.Q_table 1 a0 = tr.Q_table 1 a0 :=
              hframe 1 a0 (fun hh => hc hh.2)
            have hup := max_q_ge t1.Q_table 1 a0 ha0le
            rw [hfr, ha0eq] at hup
            have hmono := r1bound_mono n1 (n1 + 1) (by omega)
            linarith [hrow1, hup]
        refine ⟨u + 1, nd, n1 + 1, by omega, ⟨by omega, hbnds.1, hbnds.2, hrow4n, hq44n,
          hrow1n, ?_, ?_, ?_⟩⟩
        · show (e.step (an : ℤ) d).outside_temp = 20
          rw [step_outside]; exact hout
        · exact step_lux_ge e (an : ℤ) d
        · exact Or.inr (link_next e t1.Q_table d sn an hd hout hluxmin hsn handef
            hrow4n h44pos)
      · -- update of some other row: rows 1 and 4 are untouched
        have hne4 : sp.toNat ≠ 4 := by omega
        have hne1 : sp.toNat ≠ 1 := by omega
        have hrow4n : ∀ a : ℕ, a < 4 → t1.Q_table 4 a = 0 := by
          intro a ha
          rw [hframe 4 a (fun hh => hne4 hh.1.symm)]
          exact hrow4 a ha
        have hq44n : phi nd n1 ≤ t1.Q_table 4 4 := by
          rw [hframe 4 4 (fun hh => hne4 hh.1.symm)]
          exact hq44
        have h44pos : 0 < t1.Q_table 4 4 :=
          lt_of_lt_of_le (phi_pos nd n1 (by omega)) hq44n
        have hrow1n : max_q t1.Q_table 1 = max_q tr.Q_table 1 :=
          max_q_congr tr.Q_table t1.Q_table 1
            (fun a _ => hframe 1 a (fun hh => hne1 hh.1.symm))
        refine ⟨u + 1, nd, n1, by omega, ⟨by omega, hbnds.1, hbnds.2, hrow4n, hq44n,
          ?_, ?_, ?_, ?_⟩⟩
        · show r1bound n1 ≤ max_q t1.Q_table 1
          rw [hrow1n]; exact hrow1
        · show (e.step (an : ℤ) d).outside_temp = 20
          rw [step_outside]; exact hout
        · exact step_lux_ge e (an : ℤ) d
        · exact Or.inr (link_next e t1.Q_table d sn an hd hout hluxmin hsn handef
            hrow4n h44pos)

/-- One greedy loop iteration preserves the invariant. -/
theorem inv_step (st : SimState) (k : ℕ) (d : StepDraws) (hk : k < 50)
    (hd : d.valid) (hinv : Inv st k) : Inv (sim_iter 0 st d) (k + 1) := by
  obtain ⟨u, nd, n1, huk, hA⟩ := hinv
  obtain ⟨hsplit, hlb, hub, hrow4, hq44, hrow1, hout, hluxmin, hlink⟩ := hA
  rw [sim_iter_greedy st d hd.2.2.2.2.2.2.1]
  exact inv_step_core st.trainer st.env st.s_prev st.a_prev d k u nd n1 hk hd huk
    hsplit hlb hub hrow4 hq44 hrow1 hout hluxmin hlink

/-- The entries of the freshly seeded table, in closed form. -/
theorem init_q (s a : ℕ) :
    QLearningTrainer.init.Q_table s a = if s = 4 ∧ a = 4 then 10.0 else 0.0 := rfl

/-- The invariant holds at the start of the training run. -/
theorem inv_start : Inv sim_start 0 := by
  refine ⟨0, 0, 0, le_refl 0, ⟨by omega, ?_, ?_, ?_, ?_, ?_, ?_, ?_, Or.inl ⟨rfl, rfl⟩⟩⟩
  · intro s a
    rw [gbound_zero]
    show (0:ℝ) ≤ QLearningTrainer.init.Q_table s a
    rw [init_q]
    split_ifs <;> norm_num
  · intro s a
    rw [ubound_zero]
    show QLearningTrainer.init.Q_table s a ≤ 10
    rw [init_q]
    split_ifs <;> norm_num
  · intro a ha
    show QLearningTrainer.init.Q_table 4 a = 0
    rw [init_q, if_neg (by omega)]
    norm_num
  · rw [phi_zero]
    show (10:ℝ) ≤ QLearningTrainer.init.Q_table 4 4
    rw [init_q]
    norm_num
  · rw [r1bound_zero]
    show (0:ℝ) ≤ max_q QLearningTrainer.init.Q_table 1
    have h0 := max_q_ge QLearningTrainer.init.Q_table 1 0 (by norm_num)
    have hv : QLearningTrainer.init.Q_table 1 0 = 0 := by
      rw [init_q, if_neg (by omega)]
      norm_num
    rw [hv] at h0
    exact h0
  · show sim_start.env.outside_temp = 20
    show (20.0:ℝ) = 20
    norm_num
  · show (50:ℝ) ≤ sim_start.env.lux
    show (50:ℝ) ≤ 80.0
    norm_num

/-- The invariant propagates along any valid run of at most 50 iterations. -/
theorem inv_run (st : SimState) (k : ℕ) (ds : List StepDraws)
    (hinv : Inv st k) (hlen : k + ds.length ≤ 50)
    (hval : ∀ d ∈ ds, d.valid) :
    Inv (sim_run 0 st ds) (k + ds.length) := by
  induction ds generalizing st k with
  | nil => simpa using hinv
  | cons d rest ih =>
    have hd : d.valid := hval d (by simp)
    have hk : k < 50 := by
      simp only [List.length_cons] at hlen
      omega
    have h1 : Inv (sim_iter 0 st d) (k + 1) := inv_step st k d hk hd hinv
    have h2 := ih (sim_iter 0 st d) (k + 1) h1
      (by simp only [List.length_cons] at hlen ⊢; omega)
      (fun d2 hd2 => hval d2 (by simp [hd2]))
    have heq : k + (d :: rest).length = (k + 1) + rest.length := by
      simp only [List.length_cons]
      omega
    rw [heq]
    simpa [sim_run] using h2

/-- C8: in the EPSILON = 0 training run started at lux 80.0, temp 16.0,
outside temp 20.0, for every valid outcome of the random draws, after each
of the first 50 loop iterations every Q-table entry is bounded by 40 in
absolute value (in particular finite) and the greedy action of state 4 is
still IDLE. -/
theorem training_scenario_stable (ds : List StepDraws) (hlen : ds.length ≤ 50)
    (hval : ∀ d ∈ ds, d.valid) :
    (∀ s a : ℕ, |(sim_run 0 sim_start ds).trainer.Q_table s a| ≤ 40) ∧
    (argmax_row (sim_run 0 sim_start ds).trainer.Q_table 4 : ℤ) = A_DO_NOTHING := by
  have hinv : Inv (sim_run 0 sim_start ds) (0 + ds.length) :=
    inv_run sim_start 0 ds inv_start (by omega) hval
  obtain ⟨u, nd, n1, hu, hA⟩ := hinv
  obtain ⟨hsplit, hlb, hub, hrow4, hq44, hrow1, _, _, _⟩ := hA
  have hu50 : u ≤ 50 := by omega
  constructor
  · intro s a
    rw [abs_le]
    constructor
    · have h1 := hlb s a
      have h2 := gbound_mono u 50 hu50
      have h3 := gbound_fifty
      linarith
    · have h1 := hub s a
      have h2 := ubound_le_forty u
      linarith
  · have h44 : 0 < (sim_run 0 sim_start ds).trainer.Q_table 4 4 :=
      lt_of_lt_of_le (phi_pos nd n1 (by omega)) hq44
    have ha := argmax_row_last (sim_run 0 sim_start ds).trainer.Q_table 4
      (hrow4 0 (by norm_num)) (hrow4 1 (by norm_num)) (hrow4 2 (by norm_num))
      (hrow4 3 (by norm_num)) h44
    rw [ha]
    norm_num [A_DO_NOTHING]

theorem training_scenario_stable_witness :
    (∀ s a : ℕ, |(sim_run 0 sim_start []).trainer.Q_table s a| ≤ 40) ∧
    (argmax_row (sim_run 0 sim_start []).trainer.Q_table 4 : ℤ) = A_DO_NOTHING :=
  training_scenario_stable [] (by simp) (fun d hd => absurd hd (List.not_mem_nil d))

end ERL
